import Mathlib

/-!
Verification of the livestream-orchestrator repository.

This file shallowly embeds the stream repository (`src/services/stream-state.ts`),
the Redis key-value/lock primitives it uses (`src/services/redis.ts`), and the
lifecycle orchestrator (`StreamOrchestratorService`), including the effect of
its un-awaited `stateService.getStream` reloads (see the doc comments on the
`orch*` definitions).

Modelling conventions:
- Machine time (`new Date()`) is a `Nat` passed to every operation (`now`).
- The shared Redis store is modelled as in-memory association lists
  (`streams`, `idempotency`, `locks`); JSON serialization round-trips through
  `serializeStream`/`deserializeStream` (dates re-hydrated), so persistence is
  modelled as storing the `Stream` record itself.  The store is taken to be
  reachable (`redisService` present, `isInitialized` true): without it the
  service never stores any stream (`saveStream` throws), so every claim about
  stored streams lives in this configuration.
- TTLs on locks and idempotency keys are real-time behaviour and are not
  modelled; a lock entry simply persists until released.
- UUID allocation (`uuidv4()`) is a parameter (`newId`).
- Optional object fields (`version?`, `stoppedAt?`, `leftAt?`, `metadata?`,
  `instanceId?`) are `Option` fields; absent keys are `none`.
- `this.emit('stream_event', e)` (local subscriber notification) appends to
  `emitted`; `redisService.publish` appends to `published`; the bounded
  in-memory history `streamEvents` is kept via `ringAppend`.
-/

namespace Livestream

abbrev Meta := List (String × String)

inductive StreamStatus where
  | creating
  | active
  | stopping
  | stopped
  | error
deriving DecidableEq, Repr

structure Participant where
  id : String
  identity : String
  joinedAt : Nat
  leftAt : Option Nat := none
  metadata : Option Meta := none
deriving DecidableEq, Repr

structure Stream where
  id : String
  roomName : String
  status : StreamStatus
  createdAt : Nat
  updatedAt : Nat
  stoppedAt : Option Nat := none
  participants : List Participant
  metadata : Option Meta := none
  version : Option Nat := none
deriving DecidableEq, Repr

inductive EventType where
  | stream_created
  | stream_updated
  | stream_stopped
  | participant_joined
  | participant_left
deriving DecidableEq, Repr

/-- Payload shapes actually constructed by `emitStreamEvent` call sites:
`stream_created` and `deleteStream`'s `stream_stopped` carry the stream,
`updateStreamStatus` carries the stream spread together with `previousStatus`,
`updateStreamMetadata` carries the stream, participant events carry
the participant together with the stream. -/
inductive EventData where
  | streamSnap (stream : Stream)
  | streamWithPrev (stream : Stream) (previousStatus : StreamStatus)
  | participantData (participant : Participant) (stream : Stream)
deriving DecidableEq, Repr

structure StreamEvent where
  type : EventType
  streamId : String
  data : EventData
  timestamp : Nat
  instanceId : Option String := none
deriving DecidableEq, Repr

/-- First-match lookup in an association list (Redis GET on a key). -/
def lookupKV {α : Type} (l : List (String × α)) (k : String) : Option α :=
  match l with
  | [] => none
  | (k', v) :: rest => if k' = k then some v else lookupKV rest k

/-- Remove every entry with the given key (Redis DEL). -/
def eraseKV {α : Type} (l : List (String × α)) (k : String) : List (String × α) :=
  l.filter (fun p => p.1 ≠ k)

/-- Overwrite the value at a key (Redis SET). -/
def setKV {α : Type} (l : List (String × α)) (k : String) (v : α) : List (String × α) :=
  (k, v) :: eraseKV l k

/-- RedisService.acquireLock: atomic SET NX — succeeds only when the key has no
current holder, in which case the holder is recorded. -/
def acquireLock (locks : List (String × String)) (key owner : String) :
    Bool × List (String × String) :=
  match lookupKV locks key with
  | some _ => (false, locks)
  | none => (true, (key, owner) :: locks)

/-- RedisService.releaseLock: delete the key only if its current value equals
the releasing owner. -/
def releaseLock (locks : List (String × String)) (key owner : String) :
    List (String × String) :=
  match lookupKV locks key with
  | some v => if v = owner then eraseKV locks key else locks
  | none => locks

/-- In-memory bounded history: push, then keep only the last `MAX_EVENTS`. -/
def MAX_EVENTS : Nat := 1000

def ringAppend (hist : List StreamEvent) (e : StreamEvent) : List StreamEvent :=
  let h := hist ++ [e]
  if MAX_EVENTS < h.length then h.drop (h.length - MAX_EVENTS) else h

/-- The full observable state of one StreamStateService instance plus the
shared store it talks to. -/
structure ServiceState where
  streams : List (String × Stream)
  idempotency : List (String × String)
  locks : List (String × String)
  streamEvents : List StreamEvent
  emitted : List StreamEvent
  published : List StreamEvent
  instanceId : String
deriving DecidableEq, Repr

def storedStream (st : ServiceState) (streamId : String) : Option Stream :=
  lookupKV st.streams streamId

def storedVersion (st : ServiceState) (streamId : String) : Option Nat :=
  (storedStream st streamId).bind Stream.version

/-- StreamStateService.emitStreamEvent: build the event tagged with this
instance's id, append it to the bounded local history, publish it to the
shared channel (fire-and-forget), and notify local subscribers once. -/
def emitStreamEvent (st : ServiceState) (type : EventType) (streamId : String)
    (data : EventData) (now : Nat) : ServiceState :=
  let event : StreamEvent :=
    { type := type, streamId := streamId, data := data,
      timestamp := now, instanceId := some st.instanceId }
  { st with
    streamEvents := ringAppend st.streamEvents event,
    published := st.published ++ [event],
    emitted := st.emitted ++ [event] }

/-- The subscription callback installed by initializeRedis: on a message from
the shared channel, drop it when its origin instance id equals our own,
otherwise re-emit it to local subscribers. -/
def handleChannelMessage (st : ServiceState) (event : StreamEvent) : ServiceState :=
  if event.instanceId ≠ some st.instanceId then
    { st with emitted := st.emitted ++ [event] }
  else
    st

/-- `(stream.version || 0) + 1`, guarded by `stream.version !== undefined`. -/
def bumpVersion (v : Option Nat) : Option Nat :=
  match v with
  | some n => some (n + 1)
  | none => none

/-- Shallow merge of two metadata objects, keys of the second overriding. -/
def mergeMeta (old new : Meta) : Meta :=
  new.foldl (fun acc p => setKV acc p.1 p.2) old

/-- The fresh Stream record built by createStream: allocated id, defaulted
room name, status CREATING, empty participants, version 1. -/
def mkFreshStream (roomName : Option String) (metadata : Option Meta)
    (newId : String) (now : Nat) : Stream :=
  { id := newId,
    roomName := roomName.getD ("room-" ++ newId),
    status := .creating,
    createdAt := now,
    updatedAt := now,
    stoppedAt := none,
    participants := [],
    metadata := metadata,
    version := some 1 }

/-- StreamStateService.createStream. -/
def createStream (st : ServiceState) (roomName : Option String) (metadata : Option Meta)
    (idempotencyKey : Option String) (newId : String) (now : Nat) :
    Stream × ServiceState :=
  let fresh : Unit → Stream × ServiceState := fun _ =>
    let stream : Stream := mkFreshStream roomName metadata newId now
    let st := { st with streams := setKV st.streams newId stream }
    let st :=
      match idempotencyKey with
      | some k => { st with idempotency := setKV st.idempotency k newId }
      | none => st
    (stream, emitStreamEvent st .stream_created newId (.streamSnap stream) now)
  match idempotencyKey with
  | some k =>
    match lookupKV st.idempotency k with
    | some existingId =>
      match lookupKV st.streams existingId with
      | some existing => (existing, st)
      | none => fresh ()
    | none => fresh ()
  | none => fresh ()

/-- The in-place mutation performed by updateStreamStatus once the checks have
passed: set the status, refresh updatedAt, bump the version, and set the stop
timestamp when (and only when) the new status is STOPPED — otherwise the
previous stop timestamp is left as it was. -/
def applyStatusChange (stream : Stream) (status : StreamStatus) (now : Nat) : Stream :=
  { stream with
    status := status,
    updatedAt := now,
    version := bumpVersion stream.version,
    stoppedAt := if status = .stopped then some now else stream.stoppedAt }

/-- Body of updateStreamStatus (the try-block between lock acquisition and the
finally release): reload, optimistic version check, mutate, persist, emit. -/
def updateStreamStatusBody (st : ServiceState) (streamId : String)
    (status : StreamStatus) (expectedVersion : Option Nat) (now : Nat) :
    Option Stream × ServiceState :=
  match lookupKV st.streams streamId with
  | none => (none, st)
  | some stream =>
    if expectedVersion.isSome && stream.version.isSome
        && !(stream.version == expectedVersion) then
      (none, st)
    else
      let oldStatus := stream.status
      let stream := applyStatusChange stream status now
      let st := { st with streams := setKV st.streams streamId stream }
      let st :=
        if status = .stopped then
          emitStreamEvent st .stream_stopped streamId (.streamWithPrev stream oldStatus) now
        else
          emitStreamEvent st .stream_updated streamId (.streamWithPrev stream oldStatus) now
      (some stream, st)

/-- StreamStateService.updateStreamStatus: hard-fail (null) when the per-entity
lock cannot be acquired; otherwise run the body and release on every exit. -/
def updateStreamStatus (st : ServiceState) (streamId : String) (status : StreamStatus)
    (expectedVersion : Option Nat) (now : Nat) : Option Stream × ServiceState :=
  let lockKey := "stream:update:" ++ streamId
  match acquireLock st.locks lockKey st.instanceId with
  | (false, _) => (none, st)
  | (true, locks) =>
    let st1 := { st with locks := locks }
    let r := updateStreamStatusBody st1 streamId status expectedVersion now
    (r.1, { r.2 with locks := releaseLock r.2.locks lockKey st.instanceId })

/-- The in-place mutation performed by updateStreamMetadata: shallow-merge the
partial metadata into the existing metadata, refresh updatedAt, bump version. -/
def applyMetadataChange (stream : Stream) (metadata : Meta) (now : Nat) : Stream :=
  { stream with
    metadata := some (mergeMeta (stream.metadata.getD []) metadata),
    updatedAt := now,
    version := bumpVersion stream.version }

/-- Body of updateStreamMetadata: reload, shallow-merge, bump, persist, emit. -/
def updateStreamMetadataBody (st : ServiceState) (streamId : String) (metadata : Meta)
    (now : Nat) : Option Stream × ServiceState :=
  match lookupKV st.streams streamId with
  | none => (none, st)
  | some stream =>
    let stream := applyMetadataChange stream metadata now
    let st := { st with streams := setKV st.streams streamId stream }
    (some stream, emitStreamEvent st .stream_updated streamId (.streamSnap stream) now)

/-- StreamStateService.updateStreamMetadata: same hard-fail locking policy as
updateStreamStatus. -/
def updateStreamMetadata (st : ServiceState) (streamId : String) (metadata : Meta)
    (now : Nat) : Option Stream × ServiceState :=
  let lockKey := "stream:update:" ++ streamId
  match acquireLock st.locks lockKey st.instanceId with
  | (false, _) => (none, st)
  | (true, locks) =>
    let st1 := { st with locks := locks }
    let r := updateStreamMetadataBody st1 streamId metadata now
    (r.1, { r.2 with locks := releaseLock r.2.locks lockKey st.instanceId })

/-- Body of addParticipant: reload, branch on existing record (active refresh
is a silent persist; a left record re-joins with a fresh join time; an absent
record is appended), persist, emit on the two joining branches. -/
def addParticipantBody (st : ServiceState) (streamId : String) (participant : Participant)
    (now : Nat) : Option Stream × ServiceState :=
  match lookupKV st.streams streamId with
  | none => (none, st)
  | some stream =>
    match stream.participants.findIdx? (fun p => p.id = participant.id) with
    | some i =>
      let existing := (stream.participants[i]?).getD participant
      if existing.leftAt.isNone then
        let merged := { participant with joinedAt := existing.joinedAt }
        let stream :=
          { stream with
            participants := stream.participants.set i merged,
            updatedAt := now,
            version := bumpVersion stream.version }
        (some stream, { st with streams := setKV st.streams streamId stream })
      else
        let rejoined := { participant with joinedAt := now }
        let stream :=
          { stream with
            participants := stream.participants.set i rejoined,
            updatedAt := now,
            version := bumpVersion stream.version }
        let st := { st with streams := setKV st.streams streamId stream }
        (some stream,
          emitStreamEvent st .participant_joined streamId
            (.participantData participant stream) now)
    | none =>
      let stream :=
        { stream with
          participants := stream.participants ++ [participant],
          updatedAt := now,
          version := bumpVersion stream.version }
      let st := { st with streams := setKV st.streams streamId stream }
      (some stream,
        emitStreamEvent st .participant_joined streamId
          (.participantData participant stream) now)

/-- StreamStateService.addParticipant: lock scoped to the (stream, participant)
pair; acquisition failure is logged and the body proceeds anyway. -/
def addParticipant (st : ServiceState) (streamId : String) (participant : Participant)
    (now : Nat) : Option Stream × ServiceState :=
  let lockKey := "stream:participant:" ++ streamId ++ ":" ++ participant.id
  match acquireLock st.locks lockKey st.instanceId with
  | (false, _) => addParticipantBody st streamId participant now
  | (true, locks) =>
    let st1 := { st with locks := locks }
    let r := addParticipantBody st1 streamId participant now
    (r.1, { r.2 with locks := releaseLock r.2.locks lockKey st.instanceId })

/-- Body of removeParticipant: reload; absent or already-left participants are
idempotent no-ops returning the stream; otherwise set the leave timestamp,
bump, persist, emit. -/
def removeParticipantBody (st : ServiceState) (streamId : String) (participantId : String)
    (now : Nat) : Option Stream × ServiceState :=
  match lookupKV st.streams streamId with
  | none => (none, st)
  | some stream =>
    match stream.participants.findIdx? (fun p => p.id = participantId) with
    | none => (some stream, st)
    | some i =>
      let participant :=
        (stream.participants[i]?).getD
          { id := participantId, identity := participantId, joinedAt := 0 }
      if participant.leftAt.isSome then
        (some stream, st)
      else
        let participant := { participant with leftAt := some now }
        let stream :=
          { stream with
            participants := stream.participants.set i participant,
            updatedAt := now,
            version := bumpVersion stream.version }
        let st := { st with streams := setKV st.streams streamId stream }
        (some stream,
          emitStreamEvent st .participant_left streamId
            (.participantData participant stream) now)

/-- StreamStateService.removeParticipant: same soft-proceed locking policy as
addParticipant. -/
def removeParticipant (st : ServiceState) (streamId : String) (participantId : String)
    (now : Nat) : Option Stream × ServiceState :=
  let lockKey := "stream:participant:" ++ streamId ++ ":" ++ participantId
  match acquireLock st.locks lockKey st.instanceId with
  | (false, _) => removeParticipantBody st streamId participantId now
  | (true, locks) =>
    let st1 := { st with locks := locks }
    let r := removeParticipantBody st1 streamId participantId now
    (r.1, { r.2 with locks := releaseLock r.2.locks lockKey st.instanceId })

/-- StreamStateService.deleteStream: remove the stored entity and emit
`stream_stopped` with the last known snapshot; false when absent. -/
def deleteStream (st : ServiceState) (streamId : String) (now : Nat) :
    Bool × ServiceState :=
  match lookupKV st.streams streamId with
  | none => (false, st)
  | some stream =>
    let st := { st with streams := eraseKV st.streams streamId }
    (true, emitStreamEvent st .stream_stopped streamId (.streamSnap stream) now)

/-- Calls made against the external provisioning collaborator
(LiveKitService).  The room-name argument is an `Option String` because the
orchestrator sometimes reads `roomName` off an un-awaited Promise, which
yields `undefined` (modelled as `none`). -/
inductive ProvisionCall where
  | createRoom (name : Option String)
  | deleteRoom (name : Option String)
  | getRoom (name : Option String)
  | getParticipants (name : Option String)
deriving DecidableEq, Repr

/-- StreamOrchestratorService.createStream: repository create (CREATING, with
the idempotency key passed through), then the external createRoom with the
awaited stream's room name; on success updateStreamStatus→ACTIVE and a fresh
read is returned; on failure updateStreamStatus→ERROR and the same error is
re-thrown.  The provisioning outcome is the parameter `provisionError`
(`none` = success, `some e` = createRoom threw `e`); the returned list
records the collaborator calls made. -/
def orchCreateStream (st : ServiceState) (roomName : Option String)
    (metadata : Option Meta) (idempotencyKey : Option String)
    (provisionError : Option String) (newId : String) (now : Nat) :
    Except String (Option Stream) × ServiceState × List ProvisionCall :=
  let (stream, st) := createStream st roomName metadata idempotencyKey newId now
  let call := ProvisionCall.createRoom (some stream.roomName)
  match provisionError with
  | none =>
    let st := (updateStreamStatus st stream.id .active none now).2
    (Except.ok (storedStream st stream.id), st, [call])
  | some e =>
    let st := (updateStreamStatus st stream.id .error none now).2
    (Except.error e, st, [call])

/-- StreamOrchestratorService.stopStream.  The reload
`const stream = this.stateService.getStream(streamId)` is not awaited, so
`stream` is bound to a Promise object: a Promise is always truthy, hence the
`if (!stream) return null` guard is dead code and the method proceeds for
absent ids too, and `stream.roomName` reads a missing property off the
Promise, so deleteRoom is always invoked with the room name undefined
(`none`).  Then updateStreamStatus→STOPPING (a repository no-op when the id
is absent); on deleteRoom success updateStreamStatus→STOPPED and a fresh
read is returned (undefined when absent); on deleteRoom failure
updateStreamStatus→ERROR and the error is re-thrown — also when no stream
with this id exists. -/
def orchStopStream (st : ServiceState) (streamId : String)
    (provisionError : Option String) (now : Nat) :
    Except String (Option Stream) × ServiceState × List ProvisionCall :=
  let st := (updateStreamStatus st streamId .stopping none now).2
  let call := ProvisionCall.deleteRoom none
  match provisionError with
  | none =>
    let st := (updateStreamStatus st streamId .stopped none now).2
    (Except.ok (storedStream st streamId), st, [call])
  | some e =>
    let st := (updateStreamStatus st streamId .error none now).2
    (Except.error e, st, [call])

/-- StreamOrchestratorService.getStream together with its syncParticipants
helper.  The reloads at the top of getStream and of syncParticipants are not
awaited, so both absent-id guards are dead and the external getRoom query
always runs with the room name undefined; `stream.status` reads undefined
off the Promise and never equals ACTIVE, so the STOPPED reconciliation
branch is unreachable; when the room is reported present, getParticipants
runs and then syncParticipants throws a TypeError on
`stream.participants.map` (reading participants off the Promise), which the
enclosing try/catch logs and swallows before any participant is added or
removed.  The final `this.stateService.getStream(streamId) || null` resolves
to the stored stream, or undefined when absent (the `|| null` tests the
truthy Promise, not its value).  `roomExists` is the external response:
`none` = getRoom itself threw (logged and swallowed), `some b` = the room
was reported present (true) or absent (false). -/
def orchGetStream (st : ServiceState) (streamId : String)
    (roomExists : Option Bool) :
    Except String (Option Stream) × ServiceState × List ProvisionCall :=
  match roomExists with
  | none => (Except.ok (storedStream st streamId), st, [ProvisionCall.getRoom none])
  | some false =>
    (Except.ok (storedStream st streamId), st, [ProvisionCall.getRoom none])
  | some true =>
    (Except.ok (storedStream st streamId), st,
      [ProvisionCall.getRoom none, ProvisionCall.getParticipants none])

/-! Sample data used by concrete witnesses and counterexamples. -/

def demoStream : Stream :=
  { id := "s1", roomName := "r1", status := .creating, createdAt := 0, updatedAt := 0,
    stoppedAt := none, participants := [], metadata := none, version := some 1 }

def demoState : ServiceState :=
  { streams := [("s1", demoStream)], idempotency := [], locks := [],
    streamEvents := [], emitted := [], published := [], instanceId := "inst-a" }

def demoParticipant : Participant :=
  { id := "u1", identity := "u1", joinedAt := 0, leftAt := none, metadata := none }

def demoLockedState : ServiceState :=
  { demoState with
    locks := [("stream:update:s1", "inst-b"), ("stream:participant:s1:u1", "inst-b")] }

/-- A caller that always supplies the immediately-prior (currently stored)
version: the state after running the listed status updates in order. -/
def statusSeqState (st : ServiceState) (streamId : String) :
    List (StreamStatus × Nat) → ServiceState
  | [] => st
  | (status, now) :: rest =>
    statusSeqState
      (updateStreamStatus st streamId status (storedVersion st streamId) now).2
      streamId rest

/-- Whether every call in the sequence succeeded (returned a stream). -/
def statusSeqOk (st : ServiceState) (streamId : String) :
    List (StreamStatus × Nat) → Bool
  | [] => true
  | (status, now) :: rest =>
    (updateStreamStatus st streamId status (storedVersion st streamId) now).1.isSome
      && statusSeqOk
           (updateStreamStatus st streamId status (storedVersion st streamId) now).2
           streamId rest

def c9Stream : Stream :=
  { id := "s1", roomName := "r1", status := .stopped, createdAt := 0, updatedAt := 0,
    stoppedAt := some 5, participants := [], metadata := none, version := some 1 }

def c9State : ServiceState :=
  { streams := [("s1", c9Stream)], idempotency := [], locks := [],
    streamEvents := [], emitted := [], published := [], instanceId := "inst-a" }

/-- Number of stream_created events in a list (local deliveries). -/
def countCreated (events : List StreamEvent) : Nat :=
  (events.filter (fun e => e.type = EventType.stream_created)).length

/-- One mutating repository call directed at a fixed stream id. -/
inductive RepoOp where
  | updStatus (status : StreamStatus) (expectedVersion : Option Nat) (now : Nat)
  | updMeta (metadata : Meta) (now : Nat)
  | addP (participant : Participant) (now : Nat)
  | remP (participantId : String) (now : Nat)

def applyRepoOp (st : ServiceState) (streamId : String) : RepoOp → ServiceState
  | .updStatus status expectedVersion now =>
    (updateStreamStatus st streamId status expectedVersion now).2
  | .updMeta metadata now => (updateStreamMetadata st streamId metadata now).2
  | .addP participant now => (addParticipant st streamId participant now).2
  | .remP participantId now => (removeParticipant st streamId participantId now).2

/-! C3: event emission per successful mutation. -/

/-- Whether an operation is addParticipant hitting an already-active
participant: the one path that persists a change without emitting. -/
def isActiveRefresh (st : ServiceState) (streamId : String) : RepoOp → Bool
  | .addP participant _ =>
    match lookupKV st.streams streamId with
    | none => false
    | some stream =>
      match stream.participants.findIdx? (fun p => p.id = participant.id) with
      | none => false
      | some i => ((stream.participants[i]?).getD participant).leftAt.isNone
  | _ => false

def c3State : ServiceState :=
  { demoState with
    streams := [("s1", { demoStream with participants := [demoParticipant] })] }

/-! Branch characterizations of the participant bodies, used for the
add-remove-add scenario. -/

/-- The stream produced by appending a brand-new participant. -/
def appendParticipant (s : Stream) (p : Participant) (now : Nat) : Stream :=
  { s with
    participants := s.participants ++ [p],
    updatedAt := now,
    version := bumpVersion s.version }

/-- The stream produced by replacing the participant record at index i. -/
def setParticipantAt (s : Stream) (i : Nat) (q : Participant) (now : Nat) : Stream :=
  { s with
    participants := s.participants.set i q,
    updatedAt := now,
    version := bumpVersion s.version }

/-! Association-list and lock bookkeeping lemmas. -/

theorem lookupKV_setKV_self {α : Type} (l : List (String × α)) (k : String) (v : α) :
    lookupKV (setKV l k v) k = some v := by
  simp [setKV, lookupKV]

theorem lookupKV_none_key_ne {α : Type} (l : List (String × α)) (k : String)
    (h : lookupKV l k = none) : ∀ p ∈ l, p.1 ≠ k := by
  induction l with
  | nil => intro p hp; cases hp
  | cons q rest ih =>
    obtain ⟨k', v⟩ := q
    by_cases hk : k' = k
    · simp [lookupKV, hk] at h
    · simp only [lookupKV, if_neg hk] at h
      intro p hp
      rcases List.mem_cons.mp hp with rfl | hp
      · exact hk
      · exact ih h p hp

theorem eraseKV_of_lookup_none {α : Type} (l : List (String × α)) (k : String)
    (h : lookupKV l k = none) : eraseKV l k = l := by
  have hne := lookupKV_none_key_ne l k h
  simp only [eraseKV]
  rw [List.filter_eq_self.mpr]
  intro a ha
  simpa using hne a ha

theorem lookupKV_eraseKV_self {α : Type} (l : List (String × α)) (k : String) :
    lookupKV (eraseKV l k) k = none := by
  induction l with
  | nil => rfl
  | cons p rest ih =>
    obtain ⟨k', v⟩ := p
    by_cases hk : k' = k
    · simpa [eraseKV, List.filter_cons, hk] using ih
    · simpa [eraseKV, List.filter_cons, hk, lookupKV] using ih

theorem releaseLock_cons (l : List (String × String)) (k o : String)
    (h : lookupKV l k = none) : releaseLock ((k, o) :: l) k o = l := by
  have h2 : eraseKV ((k, o) :: l) k = l := by
    have h3 : eraseKV ((k, o) :: l) k = eraseKV l k := by
      simp [eraseKV, List.filter_cons]
    rw [h3, eraseKV_of_lookup_none l k h]
  simp [releaseLock, lookupKV, h2]

/-! Locks-parametricity: the try-block bodies never read or write the lock
table, so running them with a different lock table only changes the lock
table of the result. -/

theorem emitStreamEvent_locks (st : ServiceState) (L : List (String × String))
    (type : EventType) (streamId : String) (data : EventData) (now : Nat) :
    emitStreamEvent { st with locks := L } type streamId data now =
      { emitStreamEvent st type streamId data now with locks := L } := rfl

theorem updateStreamStatusBody_locks (st : ServiceState) (L : List (String × String))
    (streamId : String) (status : StreamStatus) (expectedVersion : Option Nat) (now : Nat) :
    updateStreamStatusBody { st with locks := L } streamId status expectedVersion now =
      ((updateStreamStatusBody st streamId status expectedVersion now).1,
       { (updateStreamStatusBody st streamId status expectedVersion now).2 with locks := L }) := by
  simp only [updateStreamStatusBody]
  cases h : lookupKV st.streams streamId with
  | none => rfl
  | some stream =>
    simp only []
    split
    · rfl
    · split <;> rfl

theorem updateStreamMetadataBody_locks (st : ServiceState) (L : List (String × String))
    (streamId : String) (metadata : Meta) (now : Nat) :
    updateStreamMetadataBody { st with locks := L } streamId metadata now =
      ((updateStreamMetadataBody st streamId metadata now).1,
       { (updateStreamMetadataBody st streamId metadata now).2 with locks := L }) := by
  simp only [updateStreamMetadataBody]
  cases h : lookupKV st.streams streamId <;> rfl

theorem addParticipantBody_locks (st : ServiceState) (L : List (String × String))
    (streamId : String) (participant : Participant) (now : Nat) :
    addParticipantBody { st with locks := L } streamId participant now =
      ((addParticipantBody st streamId participant now).1,
       { (addParticipantBody st streamId participant now).2 with locks := L }) := by
  simp only [addParticipantBody]
  cases h : lookupKV st.streams streamId with
  | none => rfl
  | some stream =>
    simp only []
    cases hi : stream.participants.findIdx? (fun p => p.id = participant.id) with
    | none => rfl
    | some i =>
      simp only []
      split <;> rfl

theorem removeParticipantBody_locks (st : ServiceState) (L : List (String × String))
    (streamId : String) (participantId : String) (now : Nat) :
    removeParticipantBody { st with locks := L } streamId participantId now =
      ((removeParticipantBody st streamId participantId now).1,
       { (removeParticipantBody st streamId participantId now).2 with locks := L }) := by
  simp only [removeParticipantBody]
  cases h : lookupKV st.streams streamId with
  | none => rfl
  | some stream =>
    simp only []
    cases hi : stream.participants.findIdx? (fun p => p.id = participantId) with
    | none => rfl
    | some i =>
      simp only []
      split <;> rfl

/-! Wrapper characterizations: lock-contention and lock-free behaviour of the
four mutating repository operations. -/

theorem updateStreamStatus_lockHeld (st : ServiceState) (streamId : String)
    (status : StreamStatus) (expectedVersion : Option Nat) (now : Nat) (owner : String)
    (h : lookupKV st.locks ("stream:update:" ++ streamId) = some owner) :
    updateStreamStatus st streamId status expectedVersion now = (none, st) := by
  simp only [updateStreamStatus, acquireLock, h]

theorem updateStreamMetadata_lockHeld (st : ServiceState) (streamId : String)
    (metadata : Meta) (now : Nat) (owner : String)
    (h : lookupKV st.locks ("stream:update:" ++ streamId) = some owner) :
    updateStreamMetadata st streamId metadata now = (none, st) := by
  simp only [updateStreamMetadata, acquireLock, h]

theorem updateStreamStatus_lockFree (st : ServiceState) (streamId : String)
    (status : StreamStatus) (expectedVersion : Option Nat) (now : Nat)
    (h : lookupKV st.locks ("stream:update:" ++ streamId) = none) :
    updateStreamStatus st streamId status expectedVersion now =
      ((updateStreamStatusBody st streamId status expectedVersion now).1,
       { (updateStreamStatusBody st streamId status expectedVersion now).2 with
         locks := st.locks }) := by
  simp only [updateStreamStatus, acquireLock, h]
  rw [updateStreamStatusBody_locks]
  simp only []
  rw [releaseLock_cons _ _ _ h]

theorem updateStreamMetadata_lockFree (st : ServiceState) (streamId : String)
    (metadata : Meta) (now : Nat)
    (h : lookupKV st.locks ("stream:update:" ++ streamId) = none) :
    updateStreamMetadata st streamId metadata now =
      ((updateStreamMetadataBody st streamId metadata now).1,
       { (updateStreamMetadataBody st streamId metadata now).2 with
         locks := st.locks }) := by
  simp only [updateStreamMetadata, acquireLock, h]
  rw [updateStreamMetadataBody_locks]
  simp only []
  rw [releaseLock_cons _ _ _ h]

theorem addParticipant_char (st : ServiceState) (streamId : String)
    (participant : Participant) (now : Nat) :
    (addParticipant st streamId participant now).1 =
      (addParticipantBody st streamId participant now).1 ∧
    ∃ L, (addParticipant st streamId participant now).2 =
      { (addParticipantBody st streamId participant now).2 with locks := L } := by
  simp only [addParticipant, acquireLock]
  cases h : lookupKV st.locks ("stream:participant:" ++ streamId ++ ":" ++ participant.id) with
  | some o =>
    exact ⟨rfl, (addParticipantBody st streamId participant now).2.locks, rfl⟩
  | none =>
    simp only []
    rw [addParticipantBody_locks]
    simp only []
    rw [releaseLock_cons _ _ _ h]
    exact ⟨trivial, st.locks, rfl⟩

theorem removeParticipant_char (st : ServiceState) (streamId : String)
    (participantId : String) (now : Nat) :
    (removeParticipant st streamId participantId now).1 =
      (removeParticipantBody st streamId participantId now).1 ∧
    ∃ L, (removeParticipant st streamId participantId now).2 =
      { (removeParticipantBody st streamId participantId now).2 with locks := L } := by
  simp only [removeParticipant, acquireLock]
  cases h : lookupKV st.locks ("stream:participant:" ++ streamId ++ ":" ++ participantId) with
  | some o =>
    exact ⟨rfl, (removeParticipantBody st streamId participantId now).2.locks, rfl⟩
  | none =>
    simp only []
    rw [removeParticipantBody_locks]
    simp only []
    rw [releaseLock_cons _ _ _ h]
    exact ⟨trivial, st.locks, rfl⟩

/-! Body characterizations on present and absent streams. -/

theorem updateStreamStatusBody_success (st : ServiceState) (streamId : String)
    (status : StreamStatus) (expectedVersion : Option Nat) (now : Nat) (s : Stream)
    (hs : lookupKV st.streams streamId = some s)
    (hc : (expectedVersion.isSome && s.version.isSome
            && !(s.version == expectedVersion)) = false) :
    updateStreamStatusBody st streamId status expectedVersion now =
      (some (applyStatusChange s status now),
       emitStreamEvent
         { st with streams := setKV st.streams streamId (applyStatusChange s status now) }
         (if status = .stopped then .stream_stopped else .stream_updated)
         streamId (.streamWithPrev (applyStatusChange s status now) s.status) now) := by
  simp only [updateStreamStatusBody, hs, hc]
  by_cases hstop : status = StreamStatus.stopped <;> simp [hstop]

theorem updateStreamStatusBody_absent (st : ServiceState) (streamId : String)
    (status : StreamStatus) (expectedVersion : Option Nat) (now : Nat)
    (h : lookupKV st.streams streamId = none) :
    updateStreamStatusBody st streamId status expectedVersion now = (none, st) := by
  simp only [updateStreamStatusBody, h]

theorem updateStreamMetadataBody_absent (st : ServiceState) (streamId : String)
    (metadata : Meta) (now : Nat) (h : lookupKV st.streams streamId = none) :
    updateStreamMetadataBody st streamId metadata now = (none, st) := by
  simp only [updateStreamMetadataBody, h]

theorem addParticipantBody_absent (st : ServiceState) (streamId : String)
    (participant : Participant) (now : Nat) (h : lookupKV st.streams streamId = none) :
    addParticipantBody st streamId participant now = (none, st) := by
  simp only [addParticipantBody, h]

theorem removeParticipantBody_absent (st : ServiceState) (streamId : String)
    (participantId : String) (now : Nat) (h : lookupKV st.streams streamId = none) :
    removeParticipantBody st streamId participantId now = (none, st) := by
  simp only [removeParticipantBody, h]

theorem updateStreamStatus_absent (st : ServiceState) (streamId : String)
    (status : StreamStatus) (expectedVersion : Option Nat) (now : Nat)
    (h : lookupKV st.streams streamId = none) :
    updateStreamStatus st streamId status expectedVersion now = (none, st) := by
  cases hl : lookupKV st.locks ("stream:update:" ++ streamId) with
  | some o => exact updateStreamStatus_lockHeld st streamId status expectedVersion now o hl
  | none =>
    rw [updateStreamStatus_lockFree st streamId status expectedVersion now hl,
        updateStreamStatusBody_absent st streamId status expectedVersion now h]

theorem updateStreamMetadata_absent (st : ServiceState) (streamId : String)
    (metadata : Meta) (now : Nat) (h : lookupKV st.streams streamId = none) :
    updateStreamMetadata st streamId metadata now = (none, st) := by
  cases hl : lookupKV st.locks ("stream:update:" ++ streamId) with
  | some o => exact updateStreamMetadata_lockHeld st streamId metadata now o hl
  | none =>
    rw [updateStreamMetadata_lockFree st streamId metadata now hl,
        updateStreamMetadataBody_absent st streamId metadata now h]

theorem addParticipant_absent (st : ServiceState) (streamId : String)
    (participant : Participant) (now : Nat) (h : lookupKV st.streams streamId = none) :
    addParticipant st streamId participant now = (none, st) := by
  simp only [addParticipant, acquireLock]
  cases hl : lookupKV st.locks ("stream:participant:" ++ streamId ++ ":" ++ participant.id) with
  | some o => exact addParticipantBody_absent st streamId participant now h
  | none =>
    simp only []
    rw [addParticipantBody_locks, addParticipantBody_absent st streamId participant now h]
    simp only []
    rw [releaseLock_cons _ _ _ hl]

theorem removeParticipant_absent (st : ServiceState) (streamId : String)
    (participantId : String) (now : Nat) (h : lookupKV st.streams streamId = none) :
    removeParticipant st streamId participantId now = (none, st) := by
  simp only [removeParticipant, acquireLock]
  cases hl : lookupKV st.locks ("stream:participant:" ++ streamId ++ ":" ++ participantId) with
  | some o => exact removeParticipantBody_absent st streamId participantId now h
  | none =>
    simp only []
    rw [removeParticipantBody_locks, removeParticipantBody_absent st streamId participantId now h]
    simp only []
    rw [releaseLock_cons _ _ _ hl]

/-- C4: an event received from the shared broadcast channel is suppressed when
its origin instance id equals the receiving instance's own id and otherwise
re-emitted to local subscribers exactly once; a locally produced event is
delivered to local subscribers exactly once at emission time, and the
producer's own receipt of that event from the channel is suppressed — so every
instance delivers each event locally exactly once regardless of the producer. -/
theorem c4_channel_exactly_once (st : ServiceState) (e : StreamEvent) (type : EventType)
    (streamId : String) (data : EventData) (now : Nat) :
    handleChannelMessage st e =
      (if e.instanceId = some st.instanceId then st
       else { st with emitted := st.emitted ++ [e] }) ∧
    (emitStreamEvent st type streamId data now).emitted =
      st.emitted ++
        [{ type := type, streamId := streamId, data := data, timestamp := now,
           instanceId := some st.instanceId }] ∧
    handleChannelMessage (emitStreamEvent st type streamId data now)
        { type := type, streamId := streamId, data := data, timestamp := now,
          instanceId := some st.instanceId } =
      emitStreamEvent st type streamId data now := by
  refine ⟨?_, rfl, ?_⟩
  · by_cases h : e.instanceId = some st.instanceId <;> simp [handleChannelMessage, h]
  · simp [handleChannelMessage, emitStreamEvent]

/-- C7: when lock acquisition fails because the lock key already has a holder,
the status and metadata paths hard-fail — null result, stored state entirely
untouched, nothing read or written — while the participant paths proceed
without the lock and still run the full reload-mutate-persist body. -/
theorem c7_lock_contention_policy (st : ServiceState) (streamId : String)
    (status : StreamStatus) (expectedVersion : Option Nat) (metadata : Meta)
    (participant : Participant) (participantId : String) (now : Nat) (owner : String) :
    (lookupKV st.locks ("stream:update:" ++ streamId) = some owner →
      updateStreamStatus st streamId status expectedVersion now = (none, st) ∧
      updateStreamMetadata st streamId metadata now = (none, st)) ∧
    (lookupKV st.locks ("stream:participant:" ++ streamId ++ ":" ++ participant.id)
        = some owner →
      addParticipant st streamId participant now =
        addParticipantBody st streamId participant now) ∧
    (lookupKV st.locks ("stream:participant:" ++ streamId ++ ":" ++ participantId)
        = some owner →
      removeParticipant st streamId participantId now =
        removeParticipantBody st streamId participantId now) := by
  refine ⟨fun h => ⟨updateStreamStatus_lockHeld st streamId status expectedVersion now owner h,
    updateStreamMetadata_lockHeld st streamId metadata now owner h⟩, fun h => ?_, fun h => ?_⟩
  · simp only [addParticipant, acquireLock, h]
  · simp only [removeParticipant, acquireLock, h]

theorem c7_witness :
    lookupKV demoLockedState.locks ("stream:update:" ++ "s1") = some "inst-b" ∧
    lookupKV demoLockedState.locks ("stream:participant:" ++ "s1" ++ ":" ++ "u1")
      = some "inst-b" ∧
    updateStreamStatus demoLockedState "s1" .active none 1 = (none, demoLockedState) ∧
    updateStreamMetadata demoLockedState "s1" [] 1 = (none, demoLockedState) ∧
    addParticipant demoLockedState "s1" demoParticipant 1 =
      addParticipantBody demoLockedState "s1" demoParticipant 1 ∧
    removeParticipant demoLockedState "s1" "u1" 1 =
      removeParticipantBody demoLockedState "s1" "u1" 1 := by
  have h := c7_lock_contention_policy demoLockedState "s1" .active none []
    demoParticipant "u1" 1 "inst-b"
  exact ⟨by decide, by decide, (h.1 (by decide)).1, (h.1 (by decide)).2,
    h.2.1 (by decide), h.2.2 (by decide)⟩

theorem emitStreamEvent_streams (st : ServiceState) (type : EventType) (streamId : String)
    (data : EventData) (now : Nat) :
    (emitStreamEvent st type streamId data now).streams = st.streams := rfl

theorem emitStreamEvent_locks_proj (st : ServiceState) (type : EventType) (streamId : String)
    (data : EventData) (now : Nat) :
    (emitStreamEvent st type streamId data now).locks = st.locks := rfl

theorem emitStreamEvent_emitted (st : ServiceState) (type : EventType) (streamId : String)
    (data : EventData) (now : Nat) :
    (emitStreamEvent st type streamId data now).emitted =
      st.emitted ++
        [{ type := type, streamId := streamId, data := data, timestamp := now,
           instanceId := some st.instanceId }] := rfl

/-! Success and conflict characterizations of the full updateStreamStatus. -/

theorem updateStreamStatusBody_conflict (st : ServiceState) (streamId : String)
    (status : StreamStatus) (expectedVersion : Option Nat) (now : Nat) (s : Stream)
    (hs : lookupKV st.streams streamId = some s)
    (hc : (expectedVersion.isSome && s.version.isSome
            && !(s.version == expectedVersion)) = true) :
    updateStreamStatusBody st streamId status expectedVersion now = (none, st) := by
  simp only [updateStreamStatusBody, hs, hc]
  rfl

theorem updateStreamStatus_success (st : ServiceState) (streamId : String)
    (status : StreamStatus) (expectedVersion : Option Nat) (now : Nat) (s : Stream)
    (hl : lookupKV st.locks ("stream:update:" ++ streamId) = none)
    (hs : lookupKV st.streams streamId = some s)
    (hc : (expectedVersion.isSome && s.version.isSome
            && !(s.version == expectedVersion)) = false) :
    updateStreamStatus st streamId status expectedVersion now =
      (some (applyStatusChange s status now),
       emitStreamEvent
         { st with streams := setKV st.streams streamId (applyStatusChange s status now) }
         (if status = .stopped then .stream_stopped else .stream_updated)
         streamId (.streamWithPrev (applyStatusChange s status now) s.status) now) := by
  rw [updateStreamStatus_lockFree st streamId status expectedVersion now hl,
      updateStreamStatusBody_success st streamId status expectedVersion now s hs hc]
  rfl

theorem updateStreamStatus_conflict (st : ServiceState) (streamId : String)
    (status : StreamStatus) (expectedVersion : Option Nat) (now : Nat) (s : Stream)
    (hs : lookupKV st.streams streamId = some s)
    (hc : (expectedVersion.isSome && s.version.isSome
            && !(s.version == expectedVersion)) = true) :
    updateStreamStatus st streamId status expectedVersion now = (none, st) := by
  cases hl : lookupKV st.locks ("stream:update:" ++ streamId) with
  | some o => exact updateStreamStatus_lockHeld st streamId status expectedVersion now o hl
  | none =>
    rw [updateStreamStatus_lockFree st streamId status expectedVersion now hl,
        updateStreamStatusBody_conflict st streamId status expectedVersion now s hs hc]

/-- Field-level consequences of a successful status update: the returned
stream is the applied record, it is what is stored afterwards, and the lock
table is restored. -/
theorem updateStreamStatus_success_fields (st : ServiceState) (streamId : String)
    (status : StreamStatus) (now : Nat) (s : Stream) (v : Nat)
    (hl : lookupKV st.locks ("stream:update:" ++ streamId) = none)
    (hs : lookupKV st.streams streamId = some s) (hsv : s.version = some v) :
    (updateStreamStatus st streamId status (some v) now).1
        = some (applyStatusChange s status now) ∧
    lookupKV (updateStreamStatus st streamId status (some v) now).2.streams streamId
        = some (applyStatusChange s status now) ∧
    (updateStreamStatus st streamId status (some v) now).2.locks = st.locks := by
  rw [updateStreamStatus_success st streamId status (some v) now s hl hs (by simp [hsv])]
  refine ⟨rfl, ?_, rfl⟩
  rw [emitStreamEvent_streams]
  exact lookupKV_setKV_self _ _ _

theorem statusSeq_spec (streamId : String) :
    ∀ (ops : List (StreamStatus × Nat)) (st : ServiceState) (v : Nat) (s : Stream),
    lookupKV st.locks ("stream:update:" ++ streamId) = none →
    lookupKV st.streams streamId = some s → s.version = some v →
    statusSeqOk st streamId ops = true ∧
    storedVersion (statusSeqState st streamId ops) streamId = some (v + ops.length) := by
  intro ops
  induction ops with
  | nil =>
    intro st v s hl hs hsv
    exact ⟨rfl, by simp [statusSeqState, storedVersion, storedStream, hs, hsv]⟩
  | cons op rest ih =>
    obtain ⟨status, now⟩ := op
    intro st v s hl hs hsv
    have hexp : storedVersion st streamId = some v := by
      simp [storedVersion, storedStream, hs, hsv]
    obtain ⟨h1, h2, h3⟩ := updateStreamStatus_success_fields st streamId status now s v hl hs hsv
    have happly : (applyStatusChange s status now).version = some (v + 1) := by
      simp [applyStatusChange, bumpVersion, hsv]
    have hl2 : lookupKV (updateStreamStatus st streamId status (some v) now).2.locks
        ("stream:update:" ++ streamId) = none := by rw [h3]; exact hl
    obtain ⟨ihok, ihver⟩ := ih (updateStreamStatus st streamId status (some v) now).2
      (v + 1) (applyStatusChange s status now) hl2 h2 happly
    refine ⟨?_, ?_⟩
    · simp only [statusSeqOk, hexp]
      rw [h1]
      simpa using ihok
    · simp only [statusSeqState, hexp]
      rw [ihver]
      simp [Nat.add_assoc, Nat.add_comm 1 rest.length]

/-- C1: updateStreamStatus with a supplied expectedVersion different from the
stored (reloaded) version returns null and leaves the whole state unchanged;
with the matching expectedVersion it succeeds and persists version + 1; hence
a sequence of calls each supplying the immediately-prior version all succeed,
each incrementing the version by exactly 1. -/
theorem c1_optimistic_concurrency (st : ServiceState) (streamId : String) (v : Nat)
    (hv : storedVersion st streamId = some v) :
    (∀ status now w, w ≠ v →
      updateStreamStatus st streamId status (some w) now = (none, st)) ∧
    (lookupKV st.locks ("stream:update:" ++ streamId) = none →
      (∀ status now,
        (updateStreamStatus st streamId status (some v) now).1.map Stream.version
          = some (some (v + 1)) ∧
        storedVersion (updateStreamStatus st streamId status (some v) now).2 streamId
          = some (v + 1)) ∧
      ∀ ops : List (StreamStatus × Nat),
        statusSeqOk st streamId ops = true ∧
        storedVersion (statusSeqState st streamId ops) streamId
          = some (v + ops.length)) := by
  obtain ⟨s, hs, hsv⟩ : ∃ s, lookupKV st.streams streamId = some s ∧ s.version = some v := by
    cases hlook : lookupKV st.streams streamId with
    | none => rw [storedVersion, storedStream, hlook] at hv; cases hv
    | some s =>
      rw [storedVersion, storedStream, hlook] at hv
      exact ⟨s, rfl, hv⟩
  constructor
  · intro status now w hw
    exact updateStreamStatus_conflict st streamId status (some w) now s hs
      (by simp [hsv, Ne.symm hw])
  · intro hl
    constructor
    · intro status now
      obtain ⟨h1, h2, _⟩ := updateStreamStatus_success_fields st streamId status now s v hl hs hsv
      constructor
      · rw [h1]
        simp [applyStatusChange, bumpVersion, hsv]
      · rw [storedVersion, storedStream, h2]
        simp [applyStatusChange, bumpVersion, hsv]
    · intro ops
      exact statusSeq_spec streamId ops st v s hl hs hsv

theorem c1_witness :
    storedVersion demoState "s1" = some 1 ∧
    updateStreamStatus demoState "s1" .active (some 5) 1 = (none, demoState) ∧
    storedVersion (updateStreamStatus demoState "s1" .active (some 1) 1).2 "s1" = some 2 ∧
    statusSeqOk demoState "s1" [(.active, 1), (.stopping, 2)] = true ∧
    storedVersion (statusSeqState demoState "s1" [(.active, 1), (.stopping, 2)]) "s1"
      = some 3 := by
  have h := c1_optimistic_concurrency demoState "s1" 1 (by decide)
  refine ⟨by decide, h.1 .active 1 5 (by decide), ((h.2 (by decide)).1 .active 1).2, ?_, ?_⟩
  · exact ((h.2 (by decide)).2 [(.active, 1), (.stopping, 2)]).1
  · have h2 := ((h.2 (by decide)).2 [(.active, 1), (.stopping, 2)]).2
    simpa using h2

/-- C9 counterexample: a stream whose stop timestamp is already set (it was
stopped at time 5) is successfully updated to ACTIVE; the persisted stream
still carries stoppedAt = 5 although the new status is not STOPPED, refuting
"stop timestamp is set iff newStatus is STOPPED" read as a postcondition. -/
theorem c9_counterexample :
    (updateStreamStatus c9State "s1" StreamStatus.active none 9).1.isSome = true ∧
    (updateStreamStatus c9State "s1" StreamStatus.active none 9).1.map Stream.status
      = some StreamStatus.active ∧
    (updateStreamStatus c9State "s1" StreamStatus.active none 9).1.map Stream.stoppedAt
      = some (some 5) ∧
    (storedStream (updateStreamStatus c9State "s1" StreamStatus.active none 9).2 "s1").map
      Stream.stoppedAt = some (some 5) := by decide

/-- C9 amended: after every successful updateStreamStatus call the persisted
stream's stop timestamp is set to the call time when newStatus is STOPPED and
otherwise retains its previous value (in particular it stays unset when it was
unset); the single emitted event is stream_stopped when newStatus is STOPPED
and stream_updated otherwise, carrying the previous status in its payload. -/
theorem c9_status_update_postcondition (st : ServiceState) (streamId : String)
    (status : StreamStatus) (expectedVersion : Option Nat) (now : Nat) (s s' : Stream)
    (hs : storedStream st streamId = some s)
    (hres : (updateStreamStatus st streamId status expectedVersion now).1 = some s') :
    s'.stoppedAt = (if status = .stopped then some now else s.stoppedAt) ∧
    storedStream (updateStreamStatus st streamId status expectedVersion now).2 streamId
      = some s' ∧
    (updateStreamStatus st streamId status expectedVersion now).2.emitted =
      st.emitted ++
        [{ type := if status = .stopped then .stream_stopped else .stream_updated,
           streamId := streamId, data := .streamWithPrev s' s.status,
           timestamp := now, instanceId := some st.instanceId }] := by
  have hs' : lookupKV st.streams streamId = some s := hs
  cases hl : lookupKV st.locks ("stream:update:" ++ streamId) with
  | some o =>
    rw [updateStreamStatus_lockHeld st streamId status expectedVersion now o hl] at hres
    cases hres
  | none =>
    cases hc : (expectedVersion.isSome && s.version.isSome
        && !(s.version == expectedVersion)) with
    | true =>
      rw [updateStreamStatus_conflict st streamId status expectedVersion now s hs' hc]
        at hres
      cases hres
    | false =>
      have heq := updateStreamStatus_success st streamId status expectedVersion now s hl hs' hc
      rw [heq] at hres
      have hseq : applyStatusChange s status now = s' := Option.some.inj hres
      subst hseq
      rw [heq]
      refine ⟨by simp [applyStatusChange], ?_, ?_⟩
      · rw [storedStream, emitStreamEvent_streams]
        exact lookupKV_setKV_self _ _ _
      · rw [emitStreamEvent_emitted]

theorem c9_witness :
    storedStream demoState "s1" = some demoStream ∧
    (updateStreamStatus demoState "s1" .active none 4).1
      = some { demoStream with status := StreamStatus.active, updatedAt := 4, version := some 2 } ∧
    ({ demoStream with status := StreamStatus.active, updatedAt := 4, version := some 2 } : Stream).stoppedAt
      = (if StreamStatus.active = .stopped then some 4 else demoStream.stoppedAt) ∧
    storedStream (updateStreamStatus demoState "s1" .active none 4).2 "s1"
      = some { demoStream with status := StreamStatus.active, updatedAt := 4, version := some 2 } := by
  have h := c9_status_update_postcondition demoState "s1" .active none 4 demoStream
    { demoStream with status := StreamStatus.active, updatedAt := 4, version := some 2 }
    (by decide) (by decide)
  exact ⟨by decide, by decide, h.1, h.2.1⟩

/-! createStream and deleteStream characterizations. -/

theorem createStream_fresh_of_nomap (st : ServiceState) (roomName : Option String)
    (metadata : Option Meta) (k newId : String) (now : Nat)
    (h : lookupKV st.idempotency k = none) :
    createStream st roomName metadata (some k) newId now =
      (mkFreshStream roomName metadata newId now,
       emitStreamEvent
         { st with
           streams := setKV st.streams newId (mkFreshStream roomName metadata newId now),
           idempotency := setKV st.idempotency k newId }
         .stream_created newId
         (.streamSnap (mkFreshStream roomName metadata newId now)) now) := by
  simp only [createStream, h]

theorem createStream_fresh_of_deleted (st : ServiceState) (roomName : Option String)
    (metadata : Option Meta) (k newId eid : String) (now : Nat)
    (hmap : lookupKV st.idempotency k = some eid)
    (hgone : lookupKV st.streams eid = none) :
    createStream st roomName metadata (some k) newId now =
      (mkFreshStream roomName metadata newId now,
       emitStreamEvent
         { st with
           streams := setKV st.streams newId (mkFreshStream roomName metadata newId now),
           idempotency := setKV st.idempotency k newId }
         .stream_created newId
         (.streamSnap (mkFreshStream roomName metadata newId now)) now) := by
  simp only [createStream, hmap, hgone]

theorem createStream_idempotent_hit (st : ServiceState) (roomName : Option String)
    (metadata : Option Meta) (k newId eid : String) (now : Nat) (s : Stream)
    (hmap : lookupKV st.idempotency k = some eid)
    (hexist : lookupKV st.streams eid = some s) :
    createStream st roomName metadata (some k) newId now = (s, st) := by
  simp only [createStream, hmap, hexist]

theorem deleteStream_present (st : ServiceState) (streamId : String) (now : Nat)
    (s : Stream) (h : lookupKV st.streams streamId = some s) :
    deleteStream st streamId now =
      (true,
       emitStreamEvent { st with streams := eraseKV st.streams streamId }
         .stream_stopped streamId (.streamSnap s) now) := by
  simp only [deleteStream, h]

theorem emitStreamEvent_idempotency (st : ServiceState) (type : EventType)
    (streamId : String) (data : EventData) (now : Nat) :
    (emitStreamEvent st type streamId data now).idempotency = st.idempotency := rfl

/-- C5: two createStream calls supplying the same idempotency token (while the
first-created entity still exists) return the same stream id both times, the
second call changes nothing, and exactly one stream_created event is produced
in total; if the mapped entity has been deleted, the next call with that token
proceeds as a fresh creation with the newly allocated id. -/
theorem c5_idempotent_create (st : ServiceState) (roomName : Option String)
    (metadata : Option Meta) (key newId1 newId2 newId3 : String) (t1 t2 t3 t4 : Nat)
    (hkey : lookupKV st.idempotency key = none) :
    (createStream st roomName metadata (some key) newId1 t1).1.id = newId1 ∧
    (createStream (createStream st roomName metadata (some key) newId1 t1).2
        roomName metadata (some key) newId2 t2).1.id = newId1 ∧
    (createStream (createStream st roomName metadata (some key) newId1 t1).2
        roomName metadata (some key) newId2 t2).2
      = (createStream st roomName metadata (some key) newId1 t1).2 ∧
    countCreated
        (createStream (createStream st roomName metadata (some key) newId1 t1).2
          roomName metadata (some key) newId2 t2).2.emitted
      = countCreated st.emitted + 1 ∧
    (createStream
        (deleteStream (createStream st roomName metadata (some key) newId1 t1).2
          newId1 t3).2
        roomName metadata (some key) newId3 t4).1.id = newId3 := by
  have hA := createStream_fresh_of_nomap st roomName metadata key newId1 t1 hkey
  have hBmap : lookupKV (createStream st roomName metadata (some key) newId1 t1).2.idempotency
      key = some newId1 := by
    rw [hA, emitStreamEvent_idempotency]
    exact lookupKV_setKV_self _ _ _
  have hBs : lookupKV (createStream st roomName metadata (some key) newId1 t1).2.streams
      newId1 = some (mkFreshStream roomName metadata newId1 t1) := by
    rw [hA, emitStreamEvent_streams]
    exact lookupKV_setKV_self _ _ _
  have hB := createStream_idempotent_hit
    (createStream st roomName metadata (some key) newId1 t1).2 roomName metadata
    key newId2 newId1 t2 (mkFreshStream roomName metadata newId1 t1) hBmap hBs
  have hD := deleteStream_present
    (createStream st roomName metadata (some key) newId1 t1).2 newId1 t3
    (mkFreshStream roomName metadata newId1 t1) hBs
  have hEmap : lookupKV
      (deleteStream (createStream st roomName metadata (some key) newId1 t1).2
        newId1 t3).2.idempotency key = some newId1 := by
    rw [hD, emitStreamEvent_idempotency]
    exact hBmap
  have hEgone : lookupKV
      (deleteStream (createStream st roomName metadata (some key) newId1 t1).2
        newId1 t3).2.streams newId1 = none := by
    rw [hD, emitStreamEvent_streams]
    exact lookupKV_eraseKV_self _ _
  have hE := createStream_fresh_of_deleted
    (deleteStream (createStream st roomName metadata (some key) newId1 t1).2 newId1 t3).2
    roomName metadata key newId3 newId1 t4 hEmap hEgone
  refine ⟨by rw [hA]; rfl, by rw [hB]; rfl, by rw [hB], ?_, by rw [hE]; rfl⟩
  rw [hB, hA, emitStreamEvent_emitted]
  simp [countCreated, List.filter_append]

theorem c5_witness :
    lookupKV demoState.idempotency "tok" = none ∧
    (createStream demoState none none (some "tok") "n1" 1).1.id = "n1" ∧
    (createStream (createStream demoState none none (some "tok") "n1" 1).2
        none none (some "tok") "n2" 2).1.id = "n1" ∧
    countCreated (createStream (createStream demoState none none (some "tok") "n1" 1).2
        none none (some "tok") "n2" 2).2.emitted = countCreated demoState.emitted + 1 ∧
    (createStream (deleteStream (createStream demoState none none (some "tok") "n1" 1).2
        "n1" 3).2 none none (some "tok") "n4" 4).1.id = "n4" := by
  have h := c5_idempotent_create demoState none none "tok" "n1" "n2" "n4" 1 2 3 4 (by decide)
  exact ⟨by decide, h.1, h.2.1, h.2.2.2.1, h.2.2.2.2⟩

/-! Version bookkeeping across the four mutating repository operations. -/

theorem updateStreamMetadataBody_success (st : ServiceState) (streamId : String)
    (metadata : Meta) (now : Nat) (s : Stream)
    (hs : lookupKV st.streams streamId = some s) :
    updateStreamMetadataBody st streamId metadata now =
      (some (applyMetadataChange s metadata now),
       emitStreamEvent
         { st with streams := setKV st.streams streamId (applyMetadataChange s metadata now) }
         .stream_updated streamId
         (.streamSnap (applyMetadataChange s metadata now)) now) := by
  simp only [updateStreamMetadataBody, hs]

theorem addParticipantBody_version (st : ServiceState) (streamId : String)
    (participant : Participant) (now : Nat) (s : Stream) (v : Nat)
    (hs : lookupKV st.streams streamId = some s) (hv : s.version = some v) :
    storedVersion (addParticipantBody st streamId participant now).2 streamId
      = some (v + 1) := by
  simp only [addParticipantBody, hs]
  cases hi : s.participants.findIdx? (fun p => p.id = participant.id) with
  | none =>
    simp [storedVersion, storedStream, emitStreamEvent_streams,
      lookupKV_setKV_self, bumpVersion, hv]
  | some i =>
    simp only []
    split
    · simp [storedVersion, storedStream, lookupKV_setKV_self, bumpVersion, hv]
    · simp [storedVersion, storedStream, emitStreamEvent_streams,
        lookupKV_setKV_self, bumpVersion, hv]

theorem removeParticipantBody_version (st : ServiceState) (streamId : String)
    (participantId : String) (now : Nat) (s : Stream) (v : Nat)
    (hs : lookupKV st.streams streamId = some s) (hv : s.version = some v) :
    (removeParticipantBody st streamId participantId now).2 = st ∨
    storedVersion (removeParticipantBody st streamId participantId now).2 streamId
      = some (v + 1) := by
  simp only [removeParticipantBody, hs]
  cases hi : s.participants.findIdx? (fun p => p.id = participantId) with
  | none => exact Or.inl rfl
  | some i =>
    simp only []
    split
    · exact Or.inl rfl
    · refine Or.inr ?_
      simp [storedVersion, storedStream, emitStreamEvent_streams,
        lookupKV_setKV_self, bumpVersion, hv]

theorem storedStream_locks_irrel (st : ServiceState) (L : List (String × String))
    (streamId : String) :
    storedStream { st with locks := L } streamId = storedStream st streamId := rfl

/-- Single-step version bookkeeping: any of the four mutating operations
either leaves the stored stream untouched or persists exactly version + 1. -/
theorem repoOp_version_step (st : ServiceState) (streamId : String) (op : RepoOp)
    (v : Nat) (hv : storedVersion st streamId = some v) :
    (storedStream (applyRepoOp st streamId op) streamId = storedStream st streamId ∧
     storedVersion (applyRepoOp st streamId op) streamId = some v) ∨
    storedVersion (applyRepoOp st streamId op) streamId = some (v + 1) := by
  obtain ⟨s, hs, hsv⟩ : ∃ s, lookupKV st.streams streamId = some s ∧ s.version = some v := by
    cases hlook : lookupKV st.streams streamId with
    | none => rw [storedVersion, storedStream, hlook] at hv; cases hv
    | some s =>
      rw [storedVersion, storedStream, hlook] at hv
      exact ⟨s, rfl, hv⟩
  cases op with
  | updStatus status expectedVersion now =>
    simp only [applyRepoOp]
    cases hl : lookupKV st.locks ("stream:update:" ++ streamId) with
    | some o =>
      rw [updateStreamStatus_lockHeld st streamId status expectedVersion now o hl]
      exact Or.inl ⟨rfl, hv⟩
    | none =>
      cases hc : (expectedVersion.isSome && s.version.isSome
          && !(s.version == expectedVersion)) with
      | true =>
        rw [updateStreamStatus_conflict st streamId status expectedVersion now s hs hc]
        exact Or.inl ⟨rfl, hv⟩
      | false =>
        rw [updateStreamStatus_success st streamId status expectedVersion now s hl hs hc]
        refine Or.inr ?_
        simp [storedVersion, storedStream, emitStreamEvent_streams,
          lookupKV_setKV_self, applyStatusChange, bumpVersion, hsv]
  | updMeta metadata now =>
    simp only [applyRepoOp]
    cases hl : lookupKV st.locks ("stream:update:" ++ streamId) with
    | some o =>
      rw [updateStreamMetadata_lockHeld st streamId metadata now o hl]
      exact Or.inl ⟨rfl, hv⟩
    | none =>
      rw [updateStreamMetadata_lockFree st streamId metadata now hl,
        updateStreamMetadataBody_success st streamId metadata now s hs]
      refine Or.inr ?_
      simp [storedVersion, storedStream, emitStreamEvent_streams,
        lookupKV_setKV_self, applyMetadataChange, bumpVersion, hsv]
  | addP participant now =>
    simp only [applyRepoOp]
    obtain ⟨h1, L, h2⟩ := addParticipant_char st streamId participant now
    rw [h2]
    refine Or.inr ?_
    have := addParticipantBody_version st streamId participant now s v hs hsv
    rw [storedVersion, storedStream_locks_irrel]
    rw [storedVersion] at this
    exact this
  | remP participantId now =>
    simp only [applyRepoOp]
    obtain ⟨h1, L, h2⟩ := removeParticipant_char st streamId participantId now
    rw [h2]
    cases removeParticipantBody_version st streamId participantId now s v hs hsv with
    | inl hsame =>
      rw [hsame]
      exact Or.inl ⟨rfl, hv⟩
    | inr hbump =>
      refine Or.inr ?_
      rw [storedVersion, storedStream_locks_irrel]
      rw [storedVersion] at hbump
      exact hbump

theorem repoSeq_version_mono (streamId : String) :
    ∀ (ops : List RepoOp) (st : ServiceState) (v : Nat),
    storedVersion st streamId = some v →
    ∃ m, storedVersion (ops.foldl (fun acc op => applyRepoOp acc streamId op) st) streamId
        = some m ∧ v ≤ m ∧ m ≤ v + ops.length := by
  intro ops
  induction ops with
  | nil => intro st v hv; exact ⟨v, hv, Nat.le_refl v, by simp⟩
  | cons op rest ih =>
    intro st v hv
    cases repoOp_version_step st streamId op v hv with
    | inl hsame =>
      obtain ⟨m, hm, hlo, hhi⟩ := ih (applyRepoOp st streamId op) v hsame.2
      exact ⟨m, hm, hlo, Nat.le_trans hhi (by simp [Nat.add_le_add_left, Nat.le_succ_of_le])⟩
    | inr hbump =>
      obtain ⟨m, hm, hlo, hhi⟩ := ih (applyRepoOp st streamId op) (v + 1) hbump
      refine ⟨m, hm, Nat.le_trans (Nat.le_succ v) hlo, ?_⟩
      calc m ≤ v + 1 + rest.length := hhi
        _ = v + (op :: rest).length := by simp [Nat.add_assoc, Nat.add_comm 1]

/-- C2: every successful mutating repository operation that persists a change
to a stream persists exactly the prior version plus 1, and across any sequence
of such operations the stored version never decreases and never skips a value
(it grows by at most one per call). -/
theorem c2_version_monotone (st : ServiceState) (streamId : String) (op : RepoOp)
    (v : Nat) (hv : storedVersion st streamId = some v) :
    (storedStream (applyRepoOp st streamId op) streamId = storedStream st streamId ∨
     storedVersion (applyRepoOp st streamId op) streamId = some (v + 1)) ∧
    ∀ ops : List RepoOp,
      ∃ m, storedVersion (ops.foldl (fun acc o => applyRepoOp acc streamId o) st) streamId
          = some m ∧ v ≤ m ∧ m ≤ v + ops.length := by
  constructor
  · cases repoOp_version_step st streamId op v hv with
    | inl h => exact Or.inl h.1
    | inr h => exact Or.inr h
  · intro ops
    exact repoSeq_version_mono streamId ops st v hv

theorem c2_witness :
    storedVersion demoState "s1" = some 1 ∧
    storedVersion (applyRepoOp demoState "s1" (.addP demoParticipant 1)) "s1" = some 2 ∧
    storedVersion
      (List.foldl (fun acc o => applyRepoOp acc "s1" o) demoState
        [.addP demoParticipant 1, .remP "u1" 2, .updMeta [("k", "x")] 3]) "s1"
      = some 4 := by
  have h := c2_version_monotone demoState "s1" (.addP demoParticipant 1) 1 (by decide)
  refine ⟨by decide, ?_, by decide⟩
  cases h.1 with
  | inl hsame =>
    exfalso
    revert hsame
    decide
  | inr hbump => exact hbump

/-- C3 counterexample: addParticipant for an already-active participant
persists a changed stream (the version is bumped from 1 to 2) and returns
success, yet appends nothing to the local history and delivers nothing to
local subscribers — a successful persisting mutation with zero events. -/
theorem c3_counterexample :
    storedStream (addParticipant c3State "s1" demoParticipant 5).2 "s1"
      ≠ storedStream c3State "s1" ∧
    (addParticipant c3State "s1" demoParticipant 5).1.isSome = true ∧
    storedVersion (addParticipant c3State "s1" demoParticipant 5).2 "s1" = some 2 ∧
    (addParticipant c3State "s1" demoParticipant 5).2.emitted = c3State.emitted ∧
    (addParticipant c3State "s1" demoParticipant 5).2.streamEvents
      = c3State.streamEvents := by decide

/-- C3 amended: every repository call that persists a changed stream appends
exactly one event to the local history and notifies local subscribers exactly
once — except addParticipant's idempotent refresh of an already-active
participant, which persists its merge silently (zero events); createStream
either changes nothing (idempotency hit) or emits exactly one event. -/
theorem c3_one_event_per_mutation (st : ServiceState) (streamId : String) (op : RepoOp) :
    (storedStream (applyRepoOp st streamId op) streamId ≠ storedStream st streamId →
      (isActiveRefresh st streamId op = true →
        (applyRepoOp st streamId op).emitted = st.emitted ∧
        (applyRepoOp st streamId op).streamEvents = st.streamEvents) ∧
      (isActiveRefresh st streamId op = false →
        ∃ e, (applyRepoOp st streamId op).emitted = st.emitted ++ [e] ∧
          (applyRepoOp st streamId op).streamEvents = ringAppend st.streamEvents e)) ∧
    (∀ roomName metadata idempotencyKey newId now,
      (createStream st roomName metadata idempotencyKey newId now).2 = st ∨
      ∃ e, (createStream st roomName metadata idempotencyKey newId now).2.emitted
            = st.emitted ++ [e] ∧
        (createStream st roomName metadata idempotencyKey newId now).2.streamEvents
            = ringAppend st.streamEvents e) := by
  constructor
  · intro hchanged
    cases op with
    | updStatus status expectedVersion now =>
      refine ⟨fun habs => Bool.noConfusion habs, fun _ => ?_⟩
      simp only [applyRepoOp] at hchanged ⊢
      cases hl : lookupKV st.locks ("stream:update:" ++ streamId) with
      | some o =>
        rw [updateStreamStatus_lockHeld st streamId status expectedVersion now o hl]
          at hchanged
        exact absurd rfl hchanged
      | none =>
        cases hlook : lookupKV st.streams streamId with
        | none =>
          rw [updateStreamStatus_absent st streamId status expectedVersion now hlook]
            at hchanged
          exact absurd rfl hchanged
        | some s =>
          cases hc : (expectedVersion.isSome && s.version.isSome
              && !(s.version == expectedVersion)) with
          | true =>
            rw [updateStreamStatus_conflict st streamId status expectedVersion now s
              hlook hc] at hchanged
            exact absurd rfl hchanged
          | false =>
            rw [updateStreamStatus_success st streamId status expectedVersion now s
              hl hlook hc]
            exact ⟨_, rfl, rfl⟩
    | updMeta metadata now =>
      refine ⟨fun habs => Bool.noConfusion habs, fun _ => ?_⟩
      simp only [applyRepoOp] at hchanged ⊢
      cases hl : lookupKV st.locks ("stream:update:" ++ streamId) with
      | some o =>
        rw [updateStreamMetadata_lockHeld st streamId metadata now o hl] at hchanged
        exact absurd rfl hchanged
      | none =>
        cases hlook : lookupKV st.streams streamId with
        | none =>
          rw [updateStreamMetadata_absent st streamId metadata now hlook] at hchanged
          exact absurd rfl hchanged
        | some s =>
          rw [updateStreamMetadata_lockFree st streamId metadata now hl,
            updateStreamMetadataBody_success st streamId metadata now s hlook]
          exact ⟨_, rfl, rfl⟩
    | addP participant now =>
      simp only [applyRepoOp] at hchanged ⊢
      obtain ⟨h1, L, h2⟩ := addParticipant_char st streamId participant now
      rw [h2] at hchanged ⊢
      cases hlook : lookupKV st.streams streamId with
      | none =>
        rw [addParticipantBody_absent st streamId participant now hlook] at hchanged
        exact absurd rfl hchanged
      | some s =>
        cases hi : s.participants.findIdx? (fun p => p.id = participant.id) with
        | none =>
          refine ⟨fun hrefresh => ?_, fun _ => ?_⟩
          · exfalso
            revert hrefresh
            simp [isActiveRefresh, hlook, hi]
          · simp only [addParticipantBody, hlook, hi]
            exact ⟨_, rfl, rfl⟩
        | some i =>
          cases hleft : ((s.participants[i]?).getD participant).leftAt with
          | none =>
            refine ⟨fun _ => ?_, fun hrefresh => ?_⟩
            · simp only [addParticipantBody, hlook, hi, hleft, Option.isNone_none]
              exact ⟨rfl, rfl⟩
            · exfalso
              revert hrefresh
              simp [isActiveRefresh, hlook, hi, hleft]
          | some t =>
            refine ⟨fun hrefresh => ?_, fun _ => ?_⟩
            · exfalso
              revert hrefresh
              simp [isActiveRefresh, hlook, hi, hleft]
            · simp only [addParticipantBody, hlook, hi, hleft, Option.isNone_some]
              exact ⟨_, rfl, rfl⟩
    | remP participantId now =>
      refine ⟨fun habs => Bool.noConfusion habs, fun _ => ?_⟩
      simp only [applyRepoOp] at hchanged ⊢
      obtain ⟨h1, L, h2⟩ := removeParticipant_char st streamId participantId now
      rw [h2] at hchanged ⊢
      cases hlook : lookupKV st.streams streamId with
      | none =>
        rw [removeParticipantBody_absent st streamId participantId now hlook] at hchanged
        exact absurd rfl hchanged
      | some s =>
        cases hi : s.participants.findIdx? (fun p => p.id = participantId) with
        | none =>
          simp only [removeParticipantBody, hlook, hi] at hchanged
          exact absurd rfl hchanged
        | some i =>
          cases hleft : ((s.participants[i]?).getD
              { id := participantId, identity := participantId,
                joinedAt := 0 }).leftAt with
          | some t =>
            simp only [removeParticipantBody, hlook, hi, hleft, Option.isSome_some]
              at hchanged
            exact absurd rfl hchanged
          | none =>
            simp only [removeParticipantBody, hlook, hi, hleft, Option.isSome_none]
            exact ⟨_, rfl, rfl⟩
  · intro roomName metadata idempotencyKey newId now
    cases idempotencyKey with
    | none =>
      refine Or.inr ?_
      simp only [createStream]
      exact ⟨_, rfl, rfl⟩
    | some k =>
      cases hmap : lookupKV st.idempotency k with
      | none =>
        refine Or.inr ?_
        rw [createStream_fresh_of_nomap st roomName metadata k newId now hmap]
        exact ⟨_, rfl, rfl⟩
      | some eid =>
        cases hexist : lookupKV st.streams eid with
        | none =>
          refine Or.inr ?_
          rw [createStream_fresh_of_deleted st roomName metadata k newId eid now
            hmap hexist]
          exact ⟨_, rfl, rfl⟩
        | some s =>
          refine Or.inl ?_
          rw [createStream_idempotent_hit st roomName metadata k newId eid now s
            hmap hexist]

theorem c3_witness :
    storedStream (applyRepoOp c3State "s1" (.remP "u1" 2)) "s1"
      ≠ storedStream c3State "s1" ∧
    isActiveRefresh c3State "s1" (.remP "u1" 2) = false ∧
    (∃ e, (applyRepoOp c3State "s1" (.remP "u1" 2)).emitted = c3State.emitted ++ [e] ∧
      (applyRepoOp c3State "s1" (.remP "u1" 2)).streamEvents
        = ringAppend c3State.streamEvents e) := by
  have h := c3_one_event_per_mutation c3State "s1" (.remP "u1" 2)
  exact ⟨by decide, by decide, (h.1 (by decide)).2 (by decide)⟩

theorem addParticipantBody_append (st : ServiceState) (streamId : String)
    (p : Participant) (now : Nat) (s : Stream)
    (hs : lookupKV st.streams streamId = some s)
    (hnp : s.participants.findIdx? (fun q => q.id = p.id) = none) :
    addParticipantBody st streamId p now =
      (some (appendParticipant s p now),
       emitStreamEvent
         { st with streams := setKV st.streams streamId (appendParticipant s p now) }
         .participant_joined streamId
         (.participantData p (appendParticipant s p now)) now) := by
  simp only [addParticipantBody, hs, hnp, appendParticipant]

theorem removeParticipantBody_mark (st : ServiceState) (streamId : String)
    (pid : String) (now : Nat) (s : Stream) (i : Nat) (q : Participant)
    (hs : lookupKV st.streams streamId = some s)
    (hidx : s.participants.findIdx? (fun r => r.id = pid) = some i)
    (hel : s.participants[i]? = some q) (hq : q.leftAt = none) :
    removeParticipantBody st streamId pid now =
      (some (setParticipantAt s i { q with leftAt := some now } now),
       emitStreamEvent
         { st with streams := setKV st.streams streamId (setParticipantAt s i { q with leftAt := some now } now) }
         .participant_left streamId
         (.participantData { q with leftAt := some now }
           (setParticipantAt s i { q with leftAt := some now } now)) now) := by
  simp only [removeParticipantBody, hs, hidx, hel, Option.getD_some, hq,
    Option.isSome_none, setParticipantAt, Bool.false_eq_true, if_false]

theorem addParticipantBody_rejoin (st : ServiceState) (streamId : String)
    (p : Participant) (now : Nat) (s : Stream) (i : Nat) (q : Participant) (t : Nat)
    (hs : lookupKV st.streams streamId = some s)
    (hidx : s.participants.findIdx? (fun r => r.id = p.id) = some i)
    (hel : s.participants[i]? = some q) (hq : q.leftAt = some t) :
    addParticipantBody st streamId p now =
      (some (setParticipantAt s i { p with joinedAt := now } now),
       emitStreamEvent
         { st with streams := setKV st.streams streamId (setParticipantAt s i { p with joinedAt := now } now) }
         .participant_joined streamId
         (.participantData p (setParticipantAt s i { p with joinedAt := now } now)) now) := by
  simp only [addParticipantBody, hs, hidx, hel, Option.getD_some, hq,
    Option.isNone_some, setParticipantAt, Bool.false_eq_true, if_false]

theorem addParticipant_streams (st : ServiceState) (streamId : String)
    (p : Participant) (now : Nat) :
    (addParticipant st streamId p now).2.streams
      = (addParticipantBody st streamId p now).2.streams := by
  obtain ⟨_, L, h2⟩ := addParticipant_char st streamId p now
  rw [h2]

theorem removeParticipant_streams (st : ServiceState) (streamId : String)
    (pid : String) (now : Nat) :
    (removeParticipant st streamId pid now).2.streams
      = (removeParticipantBody st streamId pid now).2.streams := by
  obtain ⟨_, L, h2⟩ := removeParticipant_char st streamId pid now
  rw [h2]

/-- C8: on a stream with no participant record for p, the sequence
add(p) at t1, remove(p.id) at t2, add(p) at t3 leaves exactly one participant
record for p.id, active (no leave timestamp), with the fresh join timestamp t3
(strictly later than the original join), and the version grown by exactly 3. -/
theorem c8_rejoin_scenario (st : ServiceState) (streamId : String) (p : Participant)
    (s : Stream) (v t1 t2 t3 : Nat)
    (hs : storedStream st streamId = some s)
    (hv : s.version = some v)
    (hnp : s.participants.findIdx? (fun q => q.id = p.id) = none)
    (hleft : p.leftAt = none)
    (hfresh : p.joinedAt < t3) :
    ∃ s3, storedStream
        (addParticipant
          (removeParticipant (addParticipant st streamId p t1).2 streamId p.id t2).2
          streamId p t3).2 streamId = some s3 ∧
      s3.version = some (v + 3) ∧
      s3.participants.filter (fun q => q.id = p.id) = [{ p with joinedAt := t3 }] ∧
      ({ p with joinedAt := t3 } : Participant).leftAt = none ∧
      p.joinedAt < ({ p with joinedAt := t3 } : Participant).joinedAt := by
  have hs' : lookupKV st.streams streamId = some s := hs
  have hb1 := addParticipantBody_append st streamId p t1 s hs' hnp
  have hstr1 : (addParticipant st streamId p t1).2.streams
      = setKV st.streams streamId (appendParticipant s p t1) := by
    rw [addParticipant_streams, hb1]
    rfl
  have hlook1 : lookupKV (addParticipant st streamId p t1).2.streams streamId
      = some (appendParticipant s p t1) := by
    rw [hstr1]
    exact lookupKV_setKV_self _ _ _
  have hidx2 : (appendParticipant s p t1).participants.findIdx? (fun r => r.id = p.id)
      = some s.participants.length := by
    simp only [appendParticipant]
    rw [List.findIdx?_append, hnp]
    simp
  have hel2 : (appendParticipant s p t1).participants[s.participants.length]?
      = some p := by
    simp only [appendParticipant]
    exact List.getElem?_concat_length _ _
  have hb2 := removeParticipantBody_mark (addParticipant st streamId p t1).2 streamId
    p.id t2 (appendParticipant s p t1) s.participants.length p hlook1 hidx2 hel2 hleft
  have hstr2 : (removeParticipant (addParticipant st streamId p t1).2 streamId p.id t2).2.streams
      = setKV (addParticipant st streamId p t1).2.streams streamId
          (setParticipantAt (appendParticipant s p t1) s.participants.length
            { p with leftAt := some t2 } t2) := by
    rw [removeParticipant_streams, hb2]
    rfl
  have hlook2 : lookupKV
      (removeParticipant (addParticipant st streamId p t1).2 streamId p.id t2).2.streams
      streamId
      = some (setParticipantAt (appendParticipant s p t1) s.participants.length
          { p with leftAt := some t2 } t2) := by
    rw [hstr2]
    exact lookupKV_setKV_self _ _ _
  have hparts2 : (setParticipantAt (appendParticipant s p t1) s.participants.length
      { p with leftAt := some t2 } t2).participants
      = s.participants ++ [{ p with leftAt := some t2 }] := by
    simp only [setParticipantAt, appendParticipant]
    rw [List.set_append_right _ _ (Nat.le_refl _)]
    simp
  have hidx3 : (setParticipantAt (appendParticipant s p t1) s.participants.length
      { p with leftAt := some t2 } t2).participants.findIdx? (fun r => r.id = p.id)
      = some s.participants.length := by
    rw [hparts2, List.findIdx?_append, hnp]
    simp
  have hel3 : (setParticipantAt (appendParticipant s p t1) s.participants.length
      { p with leftAt := some t2 } t2).participants[s.participants.length]?
      = some { p with leftAt := some t2 } := by
    rw [hparts2]
    exact List.getElem?_concat_length _ _
  have hb3 := addParticipantBody_rejoin
    (removeParticipant (addParticipant st streamId p t1).2 streamId p.id t2).2 streamId
    p t3
    (setParticipantAt (appendParticipant s p t1) s.participants.length
      { p with leftAt := some t2 } t2)
    s.participants.length { p with leftAt := some t2 } t2 hlook2 hidx3 hel3 rfl
  have hstr3 : (addParticipant
      (removeParticipant (addParticipant st streamId p t1).2 streamId p.id t2).2
      streamId p t3).2.streams
      = setKV
          (removeParticipant (addParticipant st streamId p t1).2 streamId p.id t2).2.streams
          streamId
          (setParticipantAt
            (setParticipantAt (appendParticipant s p t1) s.participants.length
              { p with leftAt := some t2 } t2)
            s.participants.length { p with joinedAt := t3 } t3) := by
    rw [addParticipant_streams, hb3]
    rfl
  refine ⟨setParticipantAt
      (setParticipantAt (appendParticipant s p t1) s.participants.length
        { p with leftAt := some t2 } t2)
      s.participants.length { p with joinedAt := t3 } t3, ?_, ?_, ?_, hleft, hfresh⟩
  · rw [storedStream, hstr3]
    exact lookupKV_setKV_self _ _ _
  · simp only [setParticipantAt, appendParticipant]
    simp [bumpVersion, hv]
  · have hparts3 : (setParticipantAt
        (setParticipantAt (appendParticipant s p t1) s.participants.length
          { p with leftAt := some t2 } t2)
        s.participants.length { p with joinedAt := t3 } t3).participants
        = s.participants ++ [{ p with joinedAt := t3 }] := by
      have hsetp : ∀ (x : Stream) i q n,
          (setParticipantAt x i q n).participants = x.participants.set i q :=
        fun _ _ _ _ => rfl
      rw [hsetp, hparts2, List.set_append_right _ _ (Nat.le_refl _)]
      simp
    rw [hparts3, List.filter_append]
    have hnone : s.participants.filter (fun q => q.id = p.id) = [] := by
      rw [List.filter_eq_nil_iff]
      intro a ha
      have := List.findIdx?_eq_none_iff.mp hnp a ha
      simpa using this
    rw [hnone]
    simp

theorem c8_witness :
    ∃ s3, storedStream
        (addParticipant
          (removeParticipant (addParticipant demoState "s1" demoParticipant 1).2 "s1"
            demoParticipant.id 2).2
          "s1" demoParticipant 3).2 "s1" = some s3 ∧
      s3.version = some (1 + 3) ∧
      s3.participants.filter (fun q => q.id = demoParticipant.id)
        = [{ demoParticipant with joinedAt := 3 }] ∧
      ({ demoParticipant with joinedAt := 3 } : Participant).leftAt = none ∧
      demoParticipant.joinedAt
        < ({ demoParticipant with joinedAt := 3 } : Participant).joinedAt :=
  c8_rejoin_scenario demoState "s1" demoParticipant demoStream 1 1 2 3
    (by decide) (by decide) (by decide) (by decide) (by decide)

theorem createStream_nokey (st : ServiceState) (roomName : Option String)
    (metadata : Option Meta) (newId : String) (now : Nat) :
    createStream st roomName metadata none newId now =
      (mkFreshStream roomName metadata newId now,
       emitStreamEvent
         { st with
           streams := setKV st.streams newId (mkFreshStream roomName metadata newId now) }
         .stream_created newId
         (.streamSnap (mkFreshStream roomName metadata newId now)) now) := by
  simp only [createStream]

/-- C6: when the external provisioning call fails during the orchestrator's
createStream or stopStream, the stream's status is transitioned to ERROR and
the same failure is re-raised to the caller; when provisioning succeeds no
exception is surfaced — the provisioning failure is the only path raised. -/
theorem c6_provision_failure_error (st : ServiceState) (roomName : Option String)
    (metadata : Option Meta) (newId : String) (now : Nat) (e : String)
    (streamId : String) (s : Stream)
    (hlockNew : lookupKV st.locks ("stream:update:" ++ newId) = none)
    (hs : storedStream st streamId = some s)
    (hlockS : lookupKV st.locks ("stream:update:" ++ streamId) = none) :
    (orchCreateStream st roomName metadata none (some e) newId now).1
        = Except.error e ∧
    (storedStream (orchCreateStream st roomName metadata none (some e) newId now).2.1
        newId).map Stream.status = some StreamStatus.error ∧
    (∃ x, (orchCreateStream st roomName metadata none none newId now).1
        = Except.ok x) ∧
    (orchStopStream st streamId (some e) now).1 = Except.error e ∧
    (storedStream (orchStopStream st streamId (some e) now).2.1 streamId).map
        Stream.status = some StreamStatus.error ∧
    (∃ x, (orchStopStream st streamId none now).1 = Except.ok x) := by
  have hcreate := createStream_nokey st roomName metadata newId now
  have hcnone : ∀ (s' : Stream), ((none : Option Nat).isSome && s'.version.isSome
      && !(s'.version == (none : Option Nat))) = false := by intro s'; rfl
  refine ⟨?_, ?_, ?_, ?_, ?_, ?_⟩
  · simp only [orchCreateStream, hcreate]
  · simp only [orchCreateStream, hcreate]
    have hup := updateStreamStatus_success
      (emitStreamEvent
        { st with streams := setKV st.streams newId (mkFreshStream roomName metadata newId now) }
        .stream_created newId
        (.streamSnap (mkFreshStream roomName metadata newId now)) now)
      newId StreamStatus.error none now (mkFreshStream roomName metadata newId now)
      hlockNew (lookupKV_setKV_self _ _ _) (hcnone _)
    rw [show (mkFreshStream roomName metadata newId now).id = newId from rfl, hup]
    rw [storedStream, emitStreamEvent_streams]
    rw [lookupKV_setKV_self]
    simp [applyStatusChange]
  · exact ⟨_, by simp only [orchCreateStream, hcreate]; rfl⟩
  · simp only [orchStopStream]
  · simp only [orchStopStream]
    have hup1 := updateStreamStatus_success st streamId StreamStatus.stopping none now s
      hlockS hs (hcnone _)
    rw [hup1]
    have hup2 := updateStreamStatus_success
      (emitStreamEvent
        { st with streams := setKV st.streams streamId (applyStatusChange s StreamStatus.stopping now) }
        (if StreamStatus.stopping = StreamStatus.stopped then EventType.stream_stopped
          else EventType.stream_updated)
        streamId
        (.streamWithPrev (applyStatusChange s StreamStatus.stopping now) s.status) now)
      streamId StreamStatus.error none now (applyStatusChange s StreamStatus.stopping now)
      hlockS (lookupKV_setKV_self _ _ _) (hcnone _)
    rw [hup2]
    rw [storedStream, emitStreamEvent_streams, lookupKV_setKV_self]
    simp [applyStatusChange]
  · exact ⟨_, by simp only [orchStopStream]; rfl⟩

theorem c6_witness :
    (orchCreateStream demoState none none none (some "boom") "n9" 7).1
      = Except.error "boom" ∧
    (storedStream (orchCreateStream demoState none none none (some "boom") "n9" 7).2.1
        "n9").map Stream.status = some StreamStatus.error ∧
    (∃ x, (orchCreateStream demoState none none none none "n9" 7).1 = Except.ok x) ∧
    (orchStopStream demoState "s1" (some "boom") 7).1 = Except.error "boom" ∧
    (storedStream (orchStopStream demoState "s1" (some "boom") 7).2.1 "s1").map
        Stream.status = some StreamStatus.error ∧
    (∃ x, (orchStopStream demoState "s1" none 7).1 = Except.ok x) :=
  c6_provision_failure_error demoState none none "n9" 7 "boom" "s1" demoStream
    (by decide) (by decide) (by decide)


/-- C10: evaluation of the code at an absent id.  The repository operations
signal absence by null/false with the state unchanged, as the claim says;
but the orchestrator's un-awaited `stateService.getStream` makes the
absent-id guards dead code, so getStream still invokes the external
collaborator (getRoom, and getParticipants when the room is reported
present) with an undefined room name, and stopStream invokes deleteRoom and
re-raises its failure even though no entity with this id exists —
contradicting the claim and the orchestrator's own unit tests. -/
theorem c10_orchestrator_absent_bug :
    storedStream demoState "zz" = none ∧
    (orchGetStream demoState "zz" (some true)).2.2
      = [ProvisionCall.getRoom none, ProvisionCall.getParticipants none] ∧
    (orchGetStream demoState "zz" (some false)).2.2 = [ProvisionCall.getRoom none] ∧
    (orchStopStream demoState "zz" (some "boom") 1).2.2
      = [ProvisionCall.deleteRoom none] ∧
    (orchStopStream demoState "zz" (some "boom") 1).1 = Except.error "boom" ∧
    updateStreamStatus demoState "zz" .active none 1 = (none, demoState) ∧
    updateStreamMetadata demoState "zz" [] 1 = (none, demoState) ∧
    addParticipant demoState "zz" demoParticipant 1 = (none, demoState) ∧
    removeParticipant demoState "zz" "u1" 1 = (none, demoState) ∧
    deleteStream demoState "zz" 1 = (false, demoState) ∧
    (storedStream demoState "zz").map Stream.roomName = none :=
  ⟨by decide, by decide, by decide, by decide, rfl, by decide, by decide,
   by decide, by decide, by decide, by decide⟩

end Livestream
